import Mathlib

/-!
Verification of the rule-evaluation and data-acquisition layer of the
P-Advisor compliance tool.  The definitions below are a shallow embedding of
`src/services/payseraIntranetService.ts`, `src/services/companyApiService.ts`,
`src/App.tsx` (`isValidIBAN`) and the submit handlers in
`src/components/Tools.tsx`.  JavaScript strings are modelled as Lean `String`,
arrays as `List`, objects used as dictionaries as association lists, `async`
I/O as an explicit environment argument describing the remote outcome, and
thrown exceptions as `Except` values.  The narrative strings in the source
files carry leading marker characters stored in a double-encoded form; they
are transcribed below code point by code point.
-/

/-- Models JavaScript `hay.includes(needle)` on char lists: `true` iff
`needle` occurs contiguously inside `hay`. -/
def listIncl (needle : List Char) : List Char → Bool
  | [] => needle.isEmpty
  | c :: rest => needle.isPrefixOf (c :: rest) || listIncl needle rest

/-- Models JavaScript `String.prototype.includes`. -/
def jsIncludes (hay needle : String) : Bool :=
  listIncl needle.toList hay.toList

/-- Models JavaScript's stringification of an optional field: `undefined`
interpolates as the text "undefined". -/
def jsShow (o : Option String) : String :=
  o.getD "undefined"

/-- Models JavaScript `String.prototype.toLowerCase` (character-wise, as
used on the ASCII rule data). -/
def jsToLower (s : String) : String :=
  String.mk (s.toList.map Char.toLower)

/-- Models JavaScript `String.prototype.toUpperCase` (character-wise). -/
def jsToUpper (s : String) : String :=
  String.mk (s.toList.map Char.toUpper)

/-- Models JavaScript `String.prototype.trim`: whitespace removed from both
ends. -/
def jsTrim (s : String) : String :=
  String.mk (((s.toList.dropWhile Char.isWhitespace).reverse.dropWhile
    Char.isWhitespace).reverse)

/- Marker characters embedded in the source's narrative strings (the file
stores the original emoji double-encoded; each constant reproduces the exact
code points found in the source). -/

/-- Marker rendered from the source bytes of the cross mark. -/
def emCross : String := "\u201A\u00F9\u00E5"

/-- Marker rendered from the source bytes of the check mark. -/
def emCheck : String := "\u201A\u00FA\u00D6"

/-- Marker rendered from the source bytes of the warning sign. -/
def emWarn : String := "\u201A\u00F6\u2020\u00D4\u220F\u00E8"

/-- Marker rendered from the source bytes of the stopwatch. -/
def emTimer : String := "\u201A\u00E8\u00B1\u00D4\u220F\u00E8"

/-- Marker rendered from the source bytes of the page facing up. -/
def emPage : String := "\uF8FF\u00FC\u00EC\u00D1"

/-- Marker rendered from the source bytes of the clipboard. -/
def emClipboard : String := "\uF8FF\u00FC\u00EC\u00E3"

/-- Marker rendered from the source bytes of the memo. -/
def emMemo : String := "\uF8FF\u00FC\u00EC\u00F9"

/-- Marker rendered from the source bytes of the currency exchange sign. -/
def emCurrency : String := "\uF8FF\u00FC\u00ED\u00B1"

/-- Marker rendered from the source bytes of the euro banknote. -/
def emEuro : String := "\uF8FF\u00FC\u00ED\u2202"

/-- Marker rendered from the source bytes of the red circle. -/
def emRedCircle : String := "\uF8FF\u00FC\u00EE\u00A5"

/-- Marker rendered from the source bytes of the magnifier. -/
def emMagnifier : String := "\uF8FF\u00FC\u00EE\u00E7"

/-- Marker rendered from the source bytes of the link sign. -/
def emLink : String := "\uF8FF\u00FC\u00EE\u00F3"

/-- Marker rendered from the source bytes of the no-entry sign. -/
def emNoEntry : String := "\uF8FF\u00FC\u00F6\u00B4"

/-- Marker rendered from the source bytes of the yellow circle. -/
def emYellowCircle : String := "\uF8FF\u00FC\u00FC\u00B0"

/-- Per-system metadata as stored in the `systems` tables of
`payseraIntranetService.ts`. -/
structure SystemInfo where
  name : String
  countries : List String
  currencies : List String
  fee : String
  processingTime : String
deriving Repr, DecidableEq

/-- The transfer rule set built by `parseTransferRules` or
`getFallbackTransferRules` (fields the fallback object omits are optional or
default to the empty list, matching the absent JavaScript properties). -/
structure TransferRules where
  systems : List (String × SystemInfo) := []
  restrictedCountries : List String
  enhancedMonitoring : List String
  currencyRestrictions : List (String × String)
  currencyOneSupportedCountries : List String := []
  sepaSupportedCountries : List String := []
  pageSource : Option String := none
deriving Repr, DecidableEq

/-- The company rule set built by `parseCompanyRestrictions` or
`getFallbackCompanyRestrictions`. -/
structure CompanyRules where
  prohibitedActivities : List String
  restrictedActivities : List String
  restrictedCountries : List String
  enhancedDueDiligence : List String
  acceptedCountries : List (String × String) := []
  pageSource : Option String := none
  activitiesPageSource : Option String := none
deriving Repr, DecidableEq

/-- Result object of `PayseraIntranetService.checkTransfer`; `system` and
`fee` are absent (`none`) on the rejection paths. -/
structure TransferResult where
  isPossible : Bool
  system : Option String
  fee : Option String
  restrictions : List String
  requiresEnhancedMonitoring : Bool
  intranetPageSource : Option String
  pageId : Option String
deriving Repr, DecidableEq

/-- Result object of `PayseraIntranetService.validateCompany`. -/
structure CompanyResult where
  isPossible : Bool
  countryStatus : String
  activityStatus : String
  restrictions : List String
  conditions : List String
  intranetPageSource : Option String
  countryPageId : Option String
  activitiesPageId : Option String
deriving Repr, DecidableEq

/-- Lookup in an association list modelling a JavaScript object property
access `obj[key]` (`none` models `undefined`). -/
def lookupStr (m : List (String × String)) (k : String) : Option String :=
  (m.find? (fun p => p.1 == k)).map (fun p => p.2)

/-- `PayseraIntranetService.getFallbackTransferRules`. -/
def getFallbackTransferRules : TransferRules where
  systems :=
    [("SEPA",
      { name := "SEPA", countries := ["EU/EEA countries"], currencies := ["EUR"],
        fee := "0 EUR", processingTime := "1-2 business days" }),
     ("SWIFT",
      { name := "SWIFT", countries := ["Worldwide"],
        currencies := ["USD", "GBP", "EUR", "CHF", "PLN", "CZK", "RON", "BGN", "NOK", "SEK", "DKK", "HUF"],
        fee := "1-5 EUR depending on currency", processingTime := "2-5 business days" }),
     ("LOCAL",
      { name := "Local Transfers", countries := ["Lithuania"], currencies := ["EUR"],
        fee := "0 EUR", processingTime := "Same day" })]
  restrictedCountries :=
    ["Afghanistan", "Belarus", "Central African Republic", "Congo", "Cuba",
     "Iran", "Iraq", "Libya", "Myanmar", "North Korea", "Russia",
     "Somalia", "South Sudan", "Sudan", "Syria", "Venezuela", "Yemen", "Zimbabwe"]
  enhancedMonitoring :=
    ["Albania", "Barbados", "Burkina Faso", "Cambodia", "Cayman Islands",
     "Haiti", "Jamaica", "Jordan", "Mali", "Morocco", "Nicaragua",
     "Pakistan", "Panama", "Philippines", "Senegal", "South Africa",
     "Turkey", "Uganda", "United Arab Emirates", "Vanuatu"]
  currencyRestrictions := [("RUB", "Prohibited"), ("BYN", "Prohibited")]

/-- `PayseraIntranetService.getFallbackCompanyRestrictions`. -/
def getFallbackCompanyRestrictions : CompanyRules where
  prohibitedActivities :=
    ["Gambling and betting",
     "Cryptocurrency exchanges and trading",
     "Adult entertainment",
     "Weapons and ammunition",
     "Tobacco products",
     "Pharmaceuticals without proper licensing",
     "Illegal substances",
     "Money laundering services",
     "Ponzi schemes or pyramid schemes",
     "High-risk financial services"]
  restrictedActivities :=
    ["E-cigarettes and vaping products",
     "Forex trading",
     "Binary options",
     "Dating services",
     "Debt collection",
     "Precious metals trading",
     "Loan services",
     "Investment services without proper licensing"]
  restrictedCountries :=
    ["Afghanistan", "Belarus", "Central African Republic", "Congo", "Cuba",
     "Iran", "Iraq", "Libya", "Myanmar", "North Korea", "Russia",
     "Somalia", "South Sudan", "Sudan", "Syria", "Venezuela", "Yemen", "Zimbabwe"]
  enhancedDueDiligence :=
    ["Albania", "Barbados", "Burkina Faso", "Cambodia", "Cayman Islands",
     "Haiti", "Jamaica", "Jordan", "Mali", "Morocco", "Nicaragua",
     "Pakistan", "Panama", "Philippines", "Senegal", "South Africa",
     "Turkey", "Uganda", "United Arab Emirates", "Vanuatu"]
  acceptedCountries :=
    [("EU", "All EU/EEA countries are accepted"),
     ("Other", "Case-by-case review for other countries")]

/-- `PayseraIntranetService.isEUCountry`. -/
def isEUCountry (country : String) : Bool :=
  let euCountries :=
    ["Austria", "Belgium", "Bulgaria", "Croatia", "Cyprus", "Czech Republic",
     "Denmark", "Estonia", "Finland", "France", "Germany", "Greece", "Hungary",
     "Ireland", "Italy", "Latvia", "Lithuania", "Luxembourg", "Malta",
     "Netherlands", "Poland", "Portugal", "Romania", "Slovakia", "Slovenia",
     "Spain", "Sweden", "Iceland", "Liechtenstein", "Norway"]
  euCountries.contains country

/-- The Currency One supported-currency list declared inside `checkTransfer`. -/
def currencyOneCurrencies : List String :=
  ["USD", "GBP", "CHF", "PLN", "CZK", "RON", "BGN", "NOK", "SEK", "DKK", "HUF"]

/-- The default page link used by `checkTransfer` when `rules.pageSource`
is absent. -/
def defaultTransferPageLink : String :=
  "https://intranet.paysera.net/display/PSWEB/58238300"

/-- `PayseraIntranetService.checkTransfer`, as a pure function of the rule
set obtained from `getTransferRules` and the three request parameters. -/
def checkTransfer (rules : TransferRules)
    (senderNationality recipientCountry currency : String) : TransferResult :=
  let PAGE_ID := "58238300"
  if rules.restrictedCountries.contains senderNationality then
    { isPossible := false
      system := none
      fee := none
      restrictions :=
        [emCross ++ " Transfers FROM " ++ senderNationality ++ " are PROHIBITED due to sanctions/compliance restrictions",
         emPage ++ " Source: Intranet Page ID " ++ PAGE_ID ++ " - Restricted Countries section",
         emLink ++ " View full details at: " ++ (rules.pageSource.getD defaultTransferPageLink)]
      requiresEnhancedMonitoring := false
      intranetPageSource := rules.pageSource
      pageId := some PAGE_ID }
  else if rules.restrictedCountries.contains recipientCountry then
    { isPossible := false
      system := none
      fee := none
      restrictions :=
        [emCross ++ " Transfers TO " ++ recipientCountry ++ " are PROHIBITED due to sanctions/compliance restrictions",
         emPage ++ " Source: Intranet Page ID " ++ PAGE_ID ++ " - Restricted Countries section",
         emLink ++ " View full details at: " ++ (rules.pageSource.getD defaultTransferPageLink)]
      requiresEnhancedMonitoring := false
      intranetPageSource := rules.pageSource
      pageId := some PAGE_ID }
  else if lookupStr rules.currencyRestrictions currency == some "Prohibited" then
    { isPossible := false
      system := none
      fee := none
      restrictions :=
        [emCross ++ " " ++ currency ++ " transfers are currently PROHIBITED",
         emPage ++ " Source: Intranet Page ID " ++ PAGE_ID ++ " - Currency Restrictions section",
         emLink ++ " View full details at: " ++ (rules.pageSource.getD defaultTransferPageLink)]
      requiresEnhancedMonitoring := false
      intranetPageSource := rules.pageSource
      pageId := some PAGE_ID }
  else
    let senderRequiresMonitoring := rules.enhancedMonitoring.contains senderNationality
    let recipientRequiresMonitoring := rules.enhancedMonitoring.contains recipientCountry
    let requiresEnhancedMonitoring := senderRequiresMonitoring || recipientRequiresMonitoring
    let sysChoice :=
      if recipientCountry == "Lithuania" && currency == "EUR" then
        ("Local Transfer (Lithuania)", "0 EUR",
         [emCheck ++ " Transfer will be executed via LOCAL transfer system",
          emTimer ++ " Processing time: Same business day",
          emEuro ++ " Fee: 0 EUR (free for local Lithuanian transfers)"])
      else if currency == "EUR" && isEUCountry recipientCountry then
        ("SEPA", "0 EUR",
         [emCheck ++ " Transfer will be executed via SEPA (Single Euro Payments Area)",
          emTimer ++ " Processing time: 1-2 business days",
          emEuro ++ " Fee: 0 EUR (free for SEPA transfers)",
          emClipboard ++ " SEPA transfers are available only within EU/EEA countries in EUR"])
      else if currencyOneCurrencies.contains currency then
        ("Currency One", "1 EUR",
         [emCheck ++ " Transfer will be executed via CURRENCY ONE system",
          emCurrency ++ " Supported currency: " ++ currency,
          emTimer ++ " Processing time: 1-3 business days",
          emEuro ++ " Fee: 1 EUR per transfer",
          emClipboard ++ " Currency One supports: " ++ String.intercalate ", " currencyOneCurrencies])
      else
        ("SWIFT", "15-50 EUR (depending on currency and amount)",
         [emCheck ++ " Transfer will be executed via SWIFT (international wire transfer)",
          emTimer ++ " Processing time: 3-5 business days",
          emEuro ++ " Fee: 15-50 EUR depending on currency and transfer amount",
          emWarn ++ " Intermediary bank fees may apply (additional charges from correspondent banks)",
          emClipboard ++ " SWIFT is used for currencies not supported by Currency One or SEPA"])
    let monitoringNotes :=
      (if senderRequiresMonitoring then
        [emWarn ++ " IMPORTANT: Sender country (" ++ senderNationality ++ ") requires ENHANCED DUE DILIGENCE and monitoring",
         emPage ++ " Source: Intranet Page ID " ++ PAGE_ID ++ " - Enhanced Monitoring Countries section"]
       else []) ++
      (if recipientRequiresMonitoring then
        [emWarn ++ " IMPORTANT: Recipient country (" ++ recipientCountry ++ ") requires ENHANCED DUE DILIGENCE and monitoring",
         emPage ++ " Source: Intranet Page ID " ++ PAGE_ID ++ " - Enhanced Monitoring Countries section"]
       else []) ++
      (if requiresEnhancedMonitoring then
        [emMemo ++ " Additional documentation will be requested for compliance verification",
         emMagnifier ++ " Transfer will undergo enhanced screening procedures"]
       else [])
    { isPossible := true
      system := some sysChoice.1
      fee := some sysChoice.2.1
      restrictions :=
        sysChoice.2.2 ++ monitoringNotes ++
        [emPage ++ " Full transfer rules documented in Intranet Page ID " ++ PAGE_ID,
         emLink ++ " View complete policy at: " ++ (rules.pageSource.getD defaultTransferPageLink)]
      requiresEnhancedMonitoring := requiresEnhancedMonitoring
      intranetPageSource := rules.pageSource
      pageId := some PAGE_ID }

/-- Title constant `COUNTRY_PAGE_TITLE` in `validateCompany`. -/
def countryPageTitle : String := "Opportunities to open a company account by country"

/-- Title constant `ACTIVITIES_PAGE_TITLE` in `validateCompany`. -/
def activitiesPageTitle : String := "ANNEX 2. TYPES OF BUSINESS ACTIVITIES"

/-- The bidirectional substring test applied to an activity entry in
`validateCompany`: the lowercased activity text contains the lowercased
entry, or the lowercased entry contains the lowercased activity text. -/
def activityMatches (activityLower entry : String) : Bool :=
  jsIncludes activityLower (jsToLower entry) || jsIncludes (jsToLower entry) activityLower

/-- The country classification computed by `validateCompany` before the
activity checks: the status string and the country narrative lines. -/
def companyCountryClassification (rules : CompanyRules) (companyCountry : String) :
    String × List String :=
  if rules.enhancedDueDiligence.contains companyCountry then
    (emWarn ++ " Enhanced Due Diligence Required (Yellow/Orange status)",
     [emWarn ++ " " ++ companyCountry ++ " requires ENHANCED DUE DILIGENCE",
      emPage ++ " Source: FNTT Space - \"" ++ countryPageTitle ++ "\"",
      emYellowCircle ++ " Country marked as requiring enhanced monitoring in intranet"])
  else if isEUCountry companyCountry then
    (emCheck ++ " Accepted - Standard Processing (EU/EEA country)",
     [emCheck ++ " " ++ companyCountry ++ " is an EU/EEA country - Standard processing applies",
      emPage ++ " Source: FNTT Space - \"" ++ countryPageTitle ++ "\""])
  else
    (emWarn ++ " Requires Case-by-case Review",
     [emWarn ++ " " ++ companyCountry ++ " requires individual assessment for account opening",
      emPage ++ " Source: FNTT Space - \"" ++ countryPageTitle ++ "\""])

/-- First condition pushed per restricted-activity match. -/
def condLicenses : String := emCheck ++ " Valid business licenses MUST be provided"

/-- Second condition pushed per restricted-activity match. -/
def condMonitoring : String := emCheck ++ " Enhanced compliance monitoring will be applied"

/-- Third condition pushed per restricted-activity match. -/
def condDocumentation : String := emCheck ++ " Additional documentation may be requested during review"

/-- The three narrative lines pushed per restricted-activity match. -/
def restrictedNarrative (restricted : String) : List String :=
  [emWarn ++ " Activity \"" ++ restricted ++ "\" is RESTRICTED (requires additional compliance review)",
   emPage ++ " Source: FNTT Space - \"" ++ activitiesPageTitle ++ "\"",
   emYellowCircle ++ " This activity is listed in the RESTRICTED activities section"]

/-- One iteration of the restricted-activities loop in `validateCompany`.
The state is `(hasRestrictedActivity, activityRestrictions, conditions)`. -/
def restrictedActivityStep (activityLower : String)
    (acc : Bool × List String × List String) (restricted : String) :
    Bool × List String × List String :=
  if activityMatches activityLower restricted then
    (true,
     acc.2.1 ++ restrictedNarrative restricted,
     acc.2.2 ++ [condLicenses, condMonitoring, condDocumentation])
  else acc

/-- The four conditions appended when the company country requires enhanced
due diligence. -/
def eddConditions : List String :=
  [emMemo ++ " Enhanced due diligence documentation REQUIRED",
   emMemo ++ " Company beneficial ownership verification REQUIRED",
   emMemo ++ " Source of funds documentation REQUIRED",
   emMemo ++ " Additional KYC/AML checks will be conducted"]

/-- `PayseraIntranetService.validateCompany`, as a pure function of the rule
set obtained from `getCompanyRestrictions` and the request parameters. -/
def validateCompany (rules : CompanyRules)
    (companyCountry companyActivity : String) : CompanyResult :=
  if rules.restrictedCountries.contains companyCountry then
    { isPossible := false
      countryStatus := emNoEntry ++ " PROHIBITED (Red status in intranet)"
      activityStatus := "N/A"
      restrictions :=
        [emCross ++ " Company accounts for " ++ companyCountry ++ " are NOT ACCEPTED",
         emPage ++ " Source: FNTT Space - \"" ++ countryPageTitle ++ "\"",
         emRedCircle ++ " Country marked as PROHIBITED/RED in the country acceptance table",
         emLink ++ " View full list: " ++ jsShow rules.pageSource,
         emWarn ++ " This country is listed in the restricted countries section with \"No\" or \"Prohibited\" status"]
      conditions := []
      intranetPageSource := rules.pageSource
      countryPageId := some "FNTT Space"
      activitiesPageId := rules.activitiesPageSource }
  else
    let requiresEDD := rules.enhancedDueDiligence.contains companyCountry
    let classification := companyCountryClassification rules companyCountry
    let countryStatus := classification.1
    let countryRestrictions := classification.2
    let activityLower := jsToLower companyActivity
    match rules.prohibitedActivities.find? (fun prohibited => activityMatches activityLower prohibited) with
    | some prohibited =>
      { isPossible := false
        countryStatus := countryStatus
        activityStatus := emNoEntry ++ " PROHIBITED Activity (Red status)"
        restrictions :=
          countryRestrictions ++
          [emCross ++ " Business activity \"" ++ prohibited ++ "\" is NOT ACCEPTED",
           emPage ++ " Source: FNTT Space - \"" ++ activitiesPageTitle ++ "\"",
           emRedCircle ++ " This activity type is listed in the PROHIBITED activities section",
           emLink ++ " View full list: " ++ jsShow rules.activitiesPageSource,
           emWarn ++ " Account opening is NOT POSSIBLE for this type of business activity"]
        conditions := []
        intranetPageSource := rules.pageSource
        countryPageId := some "FNTT Space"
        activitiesPageId := rules.activitiesPageSource }
    | none =>
      let loopResult :=
        rules.restrictedActivities.foldl (restrictedActivityStep activityLower) (false, [], [])
      let hasRestrictedActivity := loopResult.1
      let activityStatus :=
        if hasRestrictedActivity then
          emWarn ++ " RESTRICTED Activity - Additional Review Required"
        else
          emCheck ++ " Accepted - Standard Activity"
      let activityRestrictions :=
        (if hasRestrictedActivity then loopResult.2.1
         else
           loopResult.2.1 ++
           [emCheck ++ " Business activity is ACCEPTED with standard processing",
            emPage ++ " Source: FNTT Space - \"" ++ activitiesPageTitle ++ "\""]) ++
        [emLink ++ " Country policy: " ++ jsShow rules.pageSource,
         emLink ++ " Activities policy: " ++ jsShow rules.activitiesPageSource]
      let conditions :=
        loopResult.2.2 ++ (if requiresEDD then eddConditions else [])
      { isPossible := true
        countryStatus := countryStatus
        activityStatus := activityStatus
        restrictions := countryRestrictions ++ activityRestrictions
        conditions := conditions
        intranetPageSource := rules.pageSource
        countryPageId := some "FNTT Space"
        activitiesPageId := rules.activitiesPageSource }

/-!
Model of the regex-based extraction in `parseTransferRules` and
`parseCompanyRestrictions`.  The source scans raw Confluence HTML with
case-insensitive lazy regular expressions; the scanners below model them by
forward chaining of first occurrences (first delimiter, then first keyword,
then first closing marker), which coincides with the regex result on the
section-structured documents the parser targets; regex backtracking beyond
this forward chaining is not modelled.  Repeated global matches are driven
by a fuel argument instantiated with the input length, which suffices
because every match consumes at least one character.
-/

/-- Case-insensitive prefix test on char lists (models the `i` regex flag). -/
def isPrefixCI : List Char → List Char → Bool
  | [], _ => true
  | _ :: _, [] => false
  | a :: as, b :: bs => (a.toLower == b.toLower) && isPrefixCI as bs

/-- Suffix of the input beginning at the first case-insensitive occurrence
of `pat`; `none` when `pat` does not occur. -/
def findSuffixCI (pat : List Char) : List Char → Option (List Char)
  | [] => if pat.isEmpty then some [] else none
  | c :: rest =>
    if isPrefixCI pat (c :: rest) then some (c :: rest)
    else findSuffixCI pat rest

/-- Suffix of the input beginning right after the earliest case-insensitive
occurrence of any pattern in `pats` (alternatives tried in list order). -/
def findAfterAnyCI (pats : List (List Char)) : List Char → Option (List Char)
  | [] => if pats.any (fun p => p.isEmpty) then some [] else none
  | c :: rest =>
    match pats.find? (fun p => isPrefixCI p (c :: rest)) with
    | some p => some ((c :: rest).drop p.length)
    | none => findAfterAnyCI pats rest

/-- The text strictly before the first case-insensitive occurrence of any
pattern in `pats`; `none` when no pattern occurs (models a lazy capture
group followed by a mandatory delimiter). -/
def captureUntilAnyCI (pats : List (List Char)) : List Char → Option (List Char)
  | [] => none
  | c :: rest =>
    if pats.any (fun p => isPrefixCI p (c :: rest)) then some []
    else (captureUntilAnyCI pats rest).map (fun tail => c :: tail)

/-- The text strictly before the first case-insensitive occurrence of any
pattern in `pats`, or the whole input when no pattern occurs (models a lazy
capture group whose delimiter alternation includes the end anchor). -/
def captureUntilAnyOrEnd (pats : List (List Char)) : List Char → List Char
  | [] => []
  | c :: rest =>
    if pats.any (fun p => isPrefixCI p (c :: rest)) then []
    else c :: captureUntilAnyOrEnd pats rest

/-- Drops characters up to and including the first `>` (the `[^>]*>` part
of a tag pattern); `none` when no `>` remains. -/
def dropThroughGt : List Char → Option (List Char)
  | [] => none
  | c :: rest => if c == '>' then some rest else dropThroughGt rest

theorem dropThroughGt_lt {l l' : List Char} (h : dropThroughGt l = some l') :
    l'.length < l.length := by
  induction l with
  | nil => simp [dropThroughGt] at h
  | cons c rest ih =>
    rw [dropThroughGt] at h
    split at h
    · cases h; simp
    · exact Nat.lt_succ_of_lt (ih h)

/-- Models `replace(/<[^>]*>/g, '')`: removes every maximal `<...>` tag; a
`<` with no subsequent `>` is kept, because the tag pattern then fails to
match at that position. -/
def stripTags : List Char → List Char
  | [] => []
  | c :: rest =>
    if c == '<' then
      match h : dropThroughGt rest with
      | some rest2 => stripTags rest2
      | none => c :: stripTags rest
    else c :: stripTags rest
termination_by l => l.length
decreasing_by
  · exact Nat.lt_succ_of_lt (dropThroughGt_lt h)
  · simp
  · simp

/-- Suffix beginning right after the first occurrence of the tag opener
`tagHead` followed by `[^>]*>` (models `<li[^>]*>`-style patterns). -/
def findAfterTagOpenCI (tagHead : List Char) (l : List Char) : Option (List Char) :=
  match findSuffixCI tagHead l with
  | none => none
  | some suffix => dropThroughGt (suffix.drop tagHead.length)

/-- All blocks lying between an occurrence of `openPat` and the following
occurrence of `closePat`, scanning left to right (models a global lazy
regex `openPat(.*?)closePat`). -/
def blocksBetween (openPat closePat : List Char) : Nat → List Char → List (List Char)
  | 0, _ => []
  | fuel + 1, l =>
    match findAfterAnyCI [openPat] l with
    | none => []
    | some afterOpen =>
      match captureUntilAnyCI [closePat] afterOpen with
      | none => []
      | some item =>
        item :: blocksBetween openPat closePat fuel (afterOpen.drop (item.length + closePat.length))

/-- Variant of `blocksBetween` whose opening tag allows attributes
(`<tag[^>]*>`). -/
def blocksBetweenTag (tagHead closePat : List Char) : Nat → List Char → List (List Char)
  | 0, _ => []
  | fuel + 1, l =>
    match findAfterTagOpenCI tagHead l with
    | none => []
    | some afterOpen =>
      match captureUntilAnyCI [closePat] afterOpen with
      | none => []
      | some item =>
        item :: blocksBetweenTag tagHead closePat fuel (afterOpen.drop (item.length + closePat.length))

/-- Items matched by `/<li>(.*?)<\/li>/gi`. -/
def liItemsPlain (block : List Char) : List (List Char) :=
  blocksBetween "<li>".toList "</li>".toList block.length block

/-- Items matched by `/<li[^>]*>(.*?)<\/li>/gis`. -/
def liItemsAttr (block : List Char) : List (List Char) :=
  blocksBetweenTag "<li".toList "</li>".toList block.length block

/-- Row contents matched by `/<tr[^>]*>(.*?)<\/tr>/gis`. -/
def extractTableRows (body : String) : List (List Char) :=
  blocksBetweenTag "<tr".toList "</tr>".toList body.toList.length body.toList

/-- Cell contents matched by `/<td[^>]*>(.*?)<\/td>/gis` (the source keeps
the full `<td...>...</td>` match and then strips all tags, which yields the
same text as stripping the tags of the cell content alone). -/
def extractCells (row : List Char) : List (List Char) :=
  blocksBetweenTag "<td".toList "</td>".toList row.length row

/-- Tag-stripped and trimmed text of one matched block. -/
def cleanItem (item : List Char) : String :=
  jsTrim (String.mk (stripTags item))

/-- Models the heading-delimited section regexes of `parseTransferRules`
such as `/<h[23]>.*?(?:Restricted|Prohibited|Sanctioned).*?Countries.*?<\/h[23]>(.*?)<(?:h[23]|\/div)/is`:
an `<h2>`/`<h3>` opener, then a keyword of the first group, then a keyword
of the second group, then a closing heading tag, capturing up to the next
heading or `</div`. -/
def headingSection (keywords1 keywords2 : List String) (body : String) : Option (List Char) :=
  match findAfterAnyCI ["<h2>".toList, "<h3>".toList] body.toList with
  | none => none
  | some afterHeading =>
    match findAfterAnyCI (keywords1.map String.toList) afterHeading with
    | none => none
    | some afterK1 =>
      match findAfterAnyCI (keywords2.map String.toList) afterK1 with
      | none => none
      | some afterK2 =>
        match findAfterAnyCI ["</h2>".toList, "</h3>".toList] afterK2 with
        | none => none
        | some afterClose =>
          captureUntilAnyCI ["<h2".toList, "<h3".toList, "</div".toList] afterClose

/-- Country names extracted from one heading-delimited section: list items,
tags stripped, trimmed, empty entries dropped. -/
def extractCountryList (keywords1 keywords2 : List String) (body : String) : List String :=
  match headingSection keywords1 keywords2 body with
  | none => []
  | some block =>
    ((liItemsPlain block).map cleanItem).filter (fun country => country ≠ "")

/-- Splits one currency list item at the first colon or dash, skipping the
whitespace after it (models `/<li>(.*?)[:\-]\s*(.*?)<\/li>/gi`). -/
def splitCurrencyItem (item : List Char) : Option (String × String) :=
  match captureUntilAnyCI [[':'], ['-']] item with
  | none => none
  | some currencyPart =>
    let rest := (item.drop (currencyPart.length + 1)).dropWhile (fun c => c.isWhitespace)
    some (cleanItem currencyPart, cleanItem rest)

/-- Currency restrictions extracted from the currency section. -/
def extractCurrencyRestrictions (body : String) : List (String × String) :=
  match headingSection ["Currency"] ["Restrictions"] body with
  | none => []
  | some block =>
    (liItemsPlain block).foldl (fun acc item =>
      match splitCurrencyItem item with
      | none => acc
      | some (currency, status) =>
        if currency ≠ "" && status ≠ "" then acc ++ [(currency, status)] else acc) []

/-- The static settlement-system table installed by `parseTransferRules`
after a successful extraction. -/
def parsedSystemsTable : List (String × SystemInfo) :=
  [("SEPA",
    { name := "SEPA", countries := ["EU/EEA countries"], currencies := ["EUR"],
      fee := "0 EUR", processingTime := "1-2 business days" }),
   ("Currency One",
    { name := "Currency One", countries := ["Worldwide"],
      currencies := ["USD", "GBP", "CHF", "PLN", "CZK", "RON", "BGN", "NOK", "SEK", "DKK", "HUF"],
      fee := "1 EUR", processingTime := "1-3 business days" }),
   ("SWIFT",
    { name := "SWIFT", countries := ["Worldwide"], currencies := ["All major currencies"],
      fee := "15-50 EUR depending on currency and amount", processingTime := "3-5 business days" }),
   ("LOCAL",
    { name := "Local Transfer", countries := ["Lithuania"], currencies := ["EUR"],
      fee := "0 EUR", processingTime := "Same day" })]

/-- `PayseraIntranetService.parseTransferRules`: extracts the three
sections from the page body (modelled as the string the parser reads from
`body.storage.value`, else `body.view.value`, else the empty string) and
falls back to the hardcoded rules when no restricted country was parsed. -/
def parseTransferRules (body : String) : TransferRules :=
  let restrictedCountries :=
    extractCountryList ["Restricted", "Prohibited", "Sanctioned"] ["Countries"] body
  let enhancedMonitoring :=
    extractCountryList ["Enhanced", "High Risk", "High-Risk", "HighRisk"] ["Monitoring", "Countries"] body
  let currencyRestrictions := extractCurrencyRestrictions body
  if restrictedCountries.length == 0 then getFallbackTransferRules
  else
    { systems := parsedSystemsTable
      restrictedCountries := restrictedCountries
      enhancedMonitoring := enhancedMonitoring
      currencyRestrictions := currencyRestrictions
      currencyOneSupportedCountries := []
      sepaSupportedCountries := []
      pageSource := some "https://intranet.paysera.net/display/PSWEB/58238300" }

/-- One pass of the table-row loop in `parseCompanyRestrictions`: rows with
at least two cells are classified by their status cell into restricted
countries or enhanced-due-diligence countries. -/
def classifyRows (rows : List (List Char)) : List String × List String :=
  rows.foldl (fun acc row =>
    match extractCells row with
    | countryRaw :: statusRaw :: _ =>
      let countryCell := cleanItem countryRaw
      let statusCell := jsToLower (cleanItem statusRaw)
      if jsIncludes statusCell "no" || jsIncludes statusCell "prohibited" ||
          jsIncludes statusCell "not accepted" then
        if countryCell ≠ "" && 1 < countryCell.length && countryCell.length < 50 then
          (acc.1 ++ [countryCell], acc.2)
        else acc
      else if jsIncludes statusCell "enhanced" || jsIncludes statusCell "edd" ||
          jsIncludes statusCell "high risk" then
        if countryCell ≠ "" && 1 < countryCell.length && countryCell.length < 50 then
          (acc.1, acc.2 ++ [countryCell])
        else acc
      else acc
    | _ => acc) ([], [])

/-- Models the activities-section regexes such as
`/(?:Prohibited|Not Accepted|Unacceptable).*?Activities(.*?)(?:<h[23]|$)/is`:
a keyword, then the literal `Activities`, capturing up to the next heading
or the end of the document. -/
def activitiesSection (keywords : List String) (body : String) : Option (List Char) :=
  match findAfterAnyCI (keywords.map String.toList) body.toList with
  | none => none
  | some afterKeyword =>
    match findAfterAnyCI ["Activities".toList] afterKeyword with
    | none => none
    | some afterMarker =>
      some (captureUntilAnyOrEnd ["<h2".toList, "<h3".toList] afterMarker)

/-- Activity entries of one activities section: list items, tags stripped,
trimmed, entries of length at most 2 dropped. -/
def extractActivityList (keywords : List String) (body : String) : List String :=
  match activitiesSection keywords body with
  | none => []
  | some block =>
    ((liItemsAttr block).map cleanItem).filter
      (fun activity => activity ≠ "" && 2 < activity.length)

/-- `PayseraIntranetService.parseCompanyRestrictions`: classifies the
country table and extracts the two activities sections, falling back to the
hardcoded restrictions when both the restricted-country list and the
prohibited-activities list come out empty. -/
def parseCompanyRestrictions (countryBody activitiesBody : String) : CompanyRules :=
  let tableClassification := classifyRows (extractTableRows countryBody)
  let restrictedCountries := tableClassification.1
  let enhancedDueDiligence := tableClassification.2
  let prohibitedActivities :=
    extractActivityList ["Prohibited", "Not Accepted", "Unacceptable"] activitiesBody
  let restrictedActivities :=
    extractActivityList ["Restricted", "Conditional", "Review Required"] activitiesBody
  if restrictedCountries.length == 0 && prohibitedActivities.length == 0 then
    getFallbackCompanyRestrictions
  else
    { prohibitedActivities := prohibitedActivities
      restrictedActivities := restrictedActivities
      restrictedCountries := restrictedCountries
      enhancedDueDiligence := enhancedDueDiligence
      acceptedCountries :=
        [("EU", "All EU/EEA countries are accepted with standard processing"),
         ("Other", "Non-EU countries require case-by-case review")]
      pageSource := some "https://intranet.paysera.net/display/FNTT/Opportunities+to+open+a+company+account+by+country"
      activitiesPageSource := some "https://intranet.paysera.net/display/FNTT/ANNEX+2.+TYPES+OF+BUSINESS+ACTIVITIES" }

/-- The two configured credential values read from the environment. -/
structure IntranetCreds where
  apiKey : String
  email : String
deriving Repr, DecidableEq

/-- The missing-credentials test `!this.config.apiKey || !this.config.email`
(the empty string is the falsy default). -/
def credsMissing (c : IntranetCreds) : Bool :=
  c.apiKey == "" || c.email == ""

/-- The two failure classes of the fetch layer: missing configuration and
any transport-level failure (non-success status, network error, malformed
JSON envelope, page not found). -/
inductive FetchFailure where
  | configurationFailure
  | remoteFailure
deriving Repr, DecidableEq

/-- `PayseraIntranetService.fetchPageContent`: throws when credentials are
missing, otherwise the remote outcome decides.  The remote outcome is
modelled as the body string that the parser will read from the returned
envelope (`some body`), or `none` for any transport failure. -/
def fetchPageContent (c : IntranetCreds) (remote : Option String) :
    Except FetchFailure String :=
  if credsMissing c then .error .configurationFailure
  else
    match remote with
    | some body => .ok body
    | none => .error .remoteFailure

/-- `PayseraIntranetService.fetchPageByTitle`: same failure structure as
`fetchPageContent` (an empty result list also throws, which the model folds
into the `none` outcome). -/
def fetchPageByTitle (c : IntranetCreds) (remote : Option String) :
    Except FetchFailure String :=
  if credsMissing c then .error .configurationFailure
  else
    match remote with
    | some body => .ok body
    | none => .error .remoteFailure

/-- One cache slot `{ data, timestamp }` as stored in the service's `Map`s. -/
structure CacheEntry (α : Type) where
  data : α
  timestamp : Nat
deriving Repr, DecidableEq

/-- `PayseraIntranetService.cacheExpiry` (one hour, in milliseconds). -/
def cacheExpiry : Nat := 3600000

/-- The `try`-block of `getTransferRules`: fetch, parse, store in cache; on
any thrown error the hardcoded fallback is returned and the cache is left
unchanged. -/
def acquireTransferRules (c : IntranetCreds) (remote : Option String) (now : Nat)
    (cache : Option (CacheEntry TransferRules)) :
    TransferRules × Option (CacheEntry TransferRules) :=
  match fetchPageContent c remote with
  | .ok pageBody =>
    let rules := parseTransferRules pageBody
    (rules, some { data := rules, timestamp := now })
  | .error _ => (getFallbackTransferRules, cache)

/-- `PayseraIntranetService.getTransferRules`: serve a fresh cache entry,
otherwise run the fetch-parse pipeline.  The pair returned is the rule set
and the cache state after the call; `now` models `Date.now()`. -/
def getTransferRules (c : IntranetCreds) (remote : Option String)
    (cache : Option (CacheEntry TransferRules)) (now : Nat) :
    TransferRules × Option (CacheEntry TransferRules) :=
  match cache with
  | some cached =>
    if now - cached.timestamp < cacheExpiry then (cached.data, some cached)
    else acquireTransferRules c remote now (some cached)
  | none => acquireTransferRules c remote now none

/-- The `try`-block of `getCompanyRestrictions`: both documents are fetched
(concurrently via `Promise.all`, which fails as soon as either fetch
fails), parsed together, and stored in cache; on any thrown error the
hardcoded fallback is returned and the cache is left unchanged. -/
def acquireCompanyRestrictions (c : IntranetCreds)
    (countryRemote activitiesRemote : Option String) (now : Nat)
    (cache : Option (CacheEntry CompanyRules)) :
    CompanyRules × Option (CacheEntry CompanyRules) :=
  match fetchPageByTitle c countryRemote, fetchPageByTitle c activitiesRemote with
  | .ok countryBody, .ok activitiesBody =>
    let restrictions := parseCompanyRestrictions countryBody activitiesBody
    (restrictions, some { data := restrictions, timestamp := now })
  | .error _, _ => (getFallbackCompanyRestrictions, cache)
  | .ok _, .error _ => (getFallbackCompanyRestrictions, cache)

/-- `PayseraIntranetService.getCompanyRestrictions`: serve a fresh cache
entry, otherwise run the two-document fetch-parse pipeline. -/
def getCompanyRestrictions (c : IntranetCreds)
    (countryRemote activitiesRemote : Option String)
    (cache : Option (CacheEntry CompanyRules)) (now : Nat) :
    CompanyRules × Option (CacheEntry CompanyRules) :=
  match cache with
  | some cached =>
    if now - cached.timestamp < cacheExpiry then (cached.data, some cached)
    else acquireCompanyRestrictions c countryRemote activitiesRemote now (some cached)
  | none => acquireCompanyRestrictions c countryRemote activitiesRemote now none

/-!
Model of the Identifier Validator: `validateIdentifier` in
`companyApiService.ts`, `isValidIBAN` in `App.tsx`, and the
`IbanSwiftValidator` submit handler in `Tools.tsx`.
-/

/-- The character class `[A-Z]`, stated on character codes as in the
source's `charCodeAt` comparisons. -/
def isUpperAlpha (c : Char) : Bool :=
  65 ≤ c.toNat && c.toNat ≤ 90

/-- The character class `[0-9]`, stated on character codes. -/
def isDigitCh (c : Char) : Bool :=
  48 ≤ c.toNat && c.toNat ≤ 57

/-- The character class `[A-Z0-9]`. -/
def isUpperAlphaNum (c : Char) : Bool :=
  isUpperAlpha c || isDigitCh c

/-- `identifier.replace(/\s/g, '').toUpperCase()`. -/
def cleanIdentifier (s : String) : String :=
  String.mk ((s.toList.filter (fun c => !c.isWhitespace)).map Char.toUpper)

/-- The test `/^[A-Z]{2}/`. -/
def startsWithTwoUpper : List Char → Bool
  | a :: b :: _ => isUpperAlpha a && isUpperAlpha b
  | _ => false

/-- The test `/^[A-Z]{6}[A-Z0-9]{2}([A-Z0-9]{3})?$/`: exactly 8 or 11
characters, the first six letters, the rest alphanumeric. -/
def swiftPattern (l : List Char) : Bool :=
  (l.length == 8 || l.length == 11) &&
  (l.take 6).all isUpperAlpha && (l.drop 6).all isUpperAlphaNum

/-- The `IBAN_COUNTRY_CODES` table of `companyApiService.ts`: country
code, display name and expected IBAN length. -/
def ibanCountryCodes : List (String × String × Nat) :=
  [("AL", ("Albania", 28)),
   ("AD", ("Andorra", 24)),
   ("AT", ("Austria", 20)),
   ("AZ", ("Azerbaijan", 28)),
   ("BH", ("Bahrain", 22)),
   ("BE", ("Belgium", 16)),
   ("BA", ("Bosnia and Herzegovina", 20)),
   ("BR", ("Brazil", 29)),
   ("BG", ("Bulgaria", 22)),
   ("CR", ("Costa Rica", 22)),
   ("HR", ("Croatia", 21)),
   ("CY", ("Cyprus", 28)),
   ("CZ", ("Czech Republic", 24)),
   ("DK", ("Denmark", 18)),
   ("DO", ("Dominican Republic", 28)),
   ("EE", ("Estonia", 20)),
   ("FO", ("Faroe Islands", 18)),
   ("FI", ("Finland", 18)),
   ("FR", ("France", 27)),
   ("GE", ("Georgia", 22)),
   ("DE", ("Germany", 22)),
   ("GI", ("Gibraltar", 23)),
   ("GR", ("Greece", 27)),
   ("GL", ("Greenland", 18)),
   ("GT", ("Guatemala", 28)),
   ("HU", ("Hungary", 28)),
   ("IS", ("Iceland", 26)),
   ("IE", ("Ireland", 22)),
   ("IL", ("Israel", 23)),
   ("IT", ("Italy", 27)),
   ("JO", ("Jordan", 30)),
   ("KZ", ("Kazakhstan", 20)),
   ("XK", ("Kosovo", 20)),
   ("KW", ("Kuwait", 30)),
   ("LV", ("Latvia", 21)),
   ("LB", ("Lebanon", 28)),
   ("LI", ("Liechtenstein", 21)),
   ("LT", ("Lithuania", 20)),
   ("LU", ("Luxembourg", 20)),
   ("MK", ("North Macedonia", 19)),
   ("MT", ("Malta", 31)),
   ("MR", ("Mauritania", 27)),
   ("MU", ("Mauritius", 30)),
   ("MC", ("Monaco", 27)),
   ("MD", ("Moldova", 24)),
   ("ME", ("Montenegro", 22)),
   ("NL", ("Netherlands", 18)),
   ("NO", ("Norway", 15)),
   ("PK", ("Pakistan", 24)),
   ("PS", ("Palestine", 29)),
   ("PL", ("Poland", 28)),
   ("PT", ("Portugal", 25)),
   ("QA", ("Qatar", 29)),
   ("RO", ("Romania", 24)),
   ("SM", ("San Marino", 27)),
   ("SA", ("Saudi Arabia", 24)),
   ("RS", ("Serbia", 22)),
   ("SK", ("Slovakia", 24)),
   ("SI", ("Slovenia", 19)),
   ("ES", ("Spain", 24)),
   ("SE", ("Sweden", 24)),
   ("CH", ("Switzerland", 21)),
   ("TN", ("Tunisia", 24)),
   ("TR", ("Turkey", 26)),
   ("AE", ("United Arab Emirates", 23)),
   ("GB", ("United Kingdom", 22)),
   ("VG", ("Virgin Islands, British", 24))]

/-- The `details` object of an identifier validation response (fields are
absent on failure results). -/
structure IdentifierDetails where
  country : Option String := none
  bankName : Option String := none
  branch : Option String := none
deriving Repr, DecidableEq

/-- Response shape of `validateIdentifier`. -/
structure IdentifierResult where
  isValid : Bool
  type : String
  details : IdentifierDetails
  supportedTransfers : List String := []
  message : String
deriving Repr, DecidableEq

/-- `validateIdentifier` from `companyApiService.ts`.  Any cleaned string
starting with two letters takes the IBAN branch and returns there; the
SWIFT branch is only reached otherwise. -/
def validateIdentifier (identifier : String) : IdentifierResult :=
  let cleanId := cleanIdentifier identifier
  if startsWithTwoUpper cleanId.toList then
    let countryCode := String.mk (cleanId.toList.take 2)
    match ibanCountryCodes.find? (fun p => p.1 == countryCode) with
    | none =>
      { isValid := false
        type := "Unknown"
        details := {}
        message := "Unknown country code: " ++ countryCode }
    | some entry =>
      if cleanId.length ≠ entry.2.2 then
        { isValid := false
          type := "IBAN"
          details := {}
          message := "Invalid IBAN length for " ++ entry.2.1 ++ ". Expected " ++
            toString entry.2.2 ++ " characters, got " ++ toString cleanId.length ++ "." }
      else
        { isValid := true
          type := "IBAN"
          details :=
            { country := some entry.2.1
              bankName := some "Bank information available upon account verification"
              branch := some "N/A" }
          supportedTransfers := ["SEPA", "SWIFT"]
          message := "Valid IBAN for " ++ entry.2.1 ++
            ". This account can receive SEPA and international transfers." }
  else if swiftPattern cleanId.toList then
    let countryCode := String.mk ((cleanId.toList.drop 4).take 2)
    let countryInfo := ibanCountryCodes.find? (fun p => p.1 == countryCode)
    { isValid := true
      type := "SWIFT"
      details :=
        { country := some ((countryInfo.map (fun p => p.2.1)).getD "Unknown")
          bankName := some "Bank information available upon verification"
          branch := some (if cleanId.length == 11 then String.mk (cleanId.toList.drop 8)
            else "Head Office") }
      supportedTransfers := ["SWIFT", "International Wire"]
      message := "Valid SWIFT/BIC code. This identifier can be used for international wire transfers." }
  else
    { isValid := false
      type := "Unknown"
      details := {}
      message := "Invalid format. Please enter a valid IBAN or SWIFT/BIC code." }

/-- `iban.replace(/ /g, '').toUpperCase()` from `isValidIBAN` (only plain
spaces are removed there, unlike `validateIdentifier`'s `\s`). -/
def ibanCleaned (s : String) : List Char :=
  (s.toList.filter (fun c => c ≠ ' ')).map Char.toUpper

/-- The test `/^[A-Z]{2}[0-9]{2}[A-Z0-9]{4,30}$/`: 8 to 34 characters, two
letters, two digits, the body alphanumeric. -/
def ibanFormatOk (l : List Char) : Bool :=
  8 ≤ l.length && l.length ≤ 34 && (l.take 2).all isUpperAlpha &&
  ((l.drop 2).take 2).all isDigitCh && (l.drop 4).all isUpperAlphaNum

/-- Decimal digit character for a value below ten. -/
def digitChar (n : Nat) : Char := Char.ofNat (48 + n)

/-- Models `(charCode - 55).toString()` for `A`–`Z`: the value 10–35 prints
as its two decimal digits. -/
def letterDigits (c : Char) : List Char :=
  [digitChar ((c.toNat - 55) / 10), digitChar ((c.toNat - 55) % 10)]

/-- The letter-to-number substitution pass of `isValidIBAN`: characters
with code 65–90 become the digits of `code - 55`, all others are kept. -/
def ibanNumericChars (l : List Char) : List Char :=
  l.flatMap (fun c => if 65 ≤ c.toNat && c.toNat ≤ 90 then letterDigits c else [c])

/-- The integer value of a decimal digit string (models `BigInt(s)` on an
all-digits string). -/
def decimalValue (l : List Char) : Nat :=
  l.foldl (fun acc c => acc * 10 + (c.toNat - 48)) 0

/-- `isValidIBAN` from `src/App.tsx`: format check, rearrangement (first
four characters to the end), letter substitution and the mod-97 test.  The
`BigInt` conversion would throw on a non-digit string (caught to `false`),
modelled by the all-digits guard. -/
def isValidIBAN (iban : String) : Bool :=
  let cleanedIban := ibanCleaned iban
  if ibanFormatOk cleanedIban then
    let rearrangedIban := cleanedIban.drop 4 ++ cleanedIban.take 4
    let numericIban := ibanNumericChars rearrangedIban
    if numericIban.all isDigitCh then decimalValue numericIban % 97 == 1
    else false
  else false

/-- Outcome of the `IbanSwiftValidator` submit handler in `Tools.tsx`:
an error message without calling the validator, or the validator result. -/
inductive IbanFlowOutcome where
  | missingInput (msg : String)
  | invalidFormat (msg : String)
  | validatorResult (r : IdentifierResult)
deriving Repr, DecidableEq

/-- The `IbanSwiftValidator.handleSubmit` flow: an empty trimmed input is
rejected; when the trimmed uppercased input starts with two letters, the
`isValidIBAN` checksum guard must pass before `validateIdentifier` is
consulted on the trimmed input. -/
def ibanSwiftSubmit (identifier : String) : IbanFlowOutcome :=
  if jsTrim identifier == "" then
    .missingInput "Please enter an IBAN or SWIFT code."
  else
    let isPotentiallyIban := startsWithTwoUpper (jsToUpper (jsTrim identifier)).toList
    if isPotentiallyIban && !(isValidIBAN identifier) then
      .invalidFormat "The IBAN has an invalid format. Please check the length and characters."
    else
      .validatorResult (validateIdentifier (jsTrim identifier))

/-- The claim's arithmetic reading of the mod-97 value, stated from the
specification's words for comparison with the implementation: move the
first four characters to the end, then read the result as an integer in
which every letter contributes its value 10–35 (two decimal digits) and
every other character its digit value. -/
def specIbanMod97Value (cleaned : List Char) : Nat :=
  (cleaned.drop 4 ++ cleaned.take 4).foldl
    (fun acc c =>
      if isUpperAlpha c then acc * 100 + (c.toNat - 55)
      else acc * 10 + (c.toNat - 48)) 0

/-!
Helper lemmas about the embedded operations.
-/

theorem listIncl_nil (l : List Char) : listIncl [] l = true := by
  cases l <;> simp [listIncl, List.isPrefixOf]

theorem listIncl_self (l : List Char) : listIncl l l = true := by
  cases l with
  | nil => rfl
  | cons c rest =>
    have hpre : (c :: rest).isPrefixOf (c :: rest) = true :=
      List.isPrefixOf_iff_prefix.mpr (List.prefix_refl _)
    simp [listIncl, hpre]

theorem jsIncludes_empty_needle (s : String) : jsIncludes s "" = true :=
  listIncl_nil s.toList

theorem jsIncludes_self (s : String) : jsIncludes s s = true :=
  listIncl_self s.toList

/-- A failing fetch (missing credentials or transport failure) leaves an
empty cache empty and yields the fallback transfer rules. -/
theorem getTransferRules_fetch_failure (c : IntranetCreds) (remote : Option String)
    (now : Nat) (hfail : credsMissing c = true ∨ remote = none) :
    getTransferRules c remote none now = (getFallbackTransferRules, none) := by
  rcases hfail with hcm | hrm
  · simp [getTransferRules, acquireTransferRules, fetchPageContent, hcm]
  · subst hrm
    cases hcm : credsMissing c <;>
      simp [getTransferRules, acquireTransferRules, fetchPageContent, hcm]

/-- A failing fetch of either company document leaves an empty cache empty
and yields the fallback company restrictions. -/
theorem getCompanyRestrictions_fetch_failure (c : IntranetCreds)
    (countryRemote activitiesRemote : Option String) (now : Nat)
    (hfail : credsMissing c = true ∨ countryRemote = none ∨ activitiesRemote = none) :
    getCompanyRestrictions c countryRemote activitiesRemote none now =
      (getFallbackCompanyRestrictions, none) := by
  rcases hfail with hcm | hrm | hrm
  · simp [getCompanyRestrictions, acquireCompanyRestrictions, fetchPageByTitle, hcm]
  · subst hrm
    cases hcm : credsMissing c <;>
      simp [getCompanyRestrictions, acquireCompanyRestrictions, fetchPageByTitle, hcm]
  · subst hrm
    cases hcm : credsMissing c <;>
      cases countryRemote <;>
        simp [getCompanyRestrictions, acquireCompanyRestrictions, fetchPageByTitle, hcm]

/-- Case split on the outcome of one transfer-rules acquisition attempt. -/
theorem acquireTransferRules_cases (c : IntranetCreds) (remote : Option String)
    (now : Nat) (cache : Option (CacheEntry TransferRules)) :
    (acquireTransferRules c remote now cache = (getFallbackTransferRules, cache) ∧
      (credsMissing c = true ∨ remote = none)) ∨
    (∃ body, remote = some body ∧ credsMissing c = false ∧
      acquireTransferRules c remote now cache =
        (parseTransferRules body, some ⟨parseTransferRules body, now⟩)) := by
  cases hcm : credsMissing c
  · cases hr : remote with
    | none =>
      exact Or.inl ⟨by simp [acquireTransferRules, fetchPageContent, hcm], Or.inr rfl⟩
    | some body =>
      exact Or.inr ⟨body, rfl, rfl, by simp [acquireTransferRules, fetchPageContent, hcm]⟩
  · exact Or.inl ⟨by simp [acquireTransferRules, fetchPageContent, hcm], Or.inl rfl⟩

/-- Case split on the outcome of one company-restrictions acquisition
attempt: either the whole attempt fell back, or both documents were
fetched and parsed together. -/
theorem acquireCompanyRestrictions_cases (c : IntranetCreds)
    (countryRemote activitiesRemote : Option String) (now : Nat)
    (cache : Option (CacheEntry CompanyRules)) :
    (acquireCompanyRestrictions c countryRemote activitiesRemote now cache =
        (getFallbackCompanyRestrictions, cache) ∧
      (credsMissing c = true ∨ countryRemote = none ∨ activitiesRemote = none)) ∨
    (∃ cb ab, countryRemote = some cb ∧ activitiesRemote = some ab ∧
      credsMissing c = false ∧
      acquireCompanyRestrictions c countryRemote activitiesRemote now cache =
        (parseCompanyRestrictions cb ab, some ⟨parseCompanyRestrictions cb ab, now⟩)) := by
  cases hcm : credsMissing c
  · cases hcr : countryRemote with
    | none =>
      exact Or.inl ⟨by simp [acquireCompanyRestrictions, fetchPageByTitle, hcm],
        Or.inr (Or.inl rfl)⟩
    | some cb =>
      cases har : activitiesRemote with
      | none =>
        exact Or.inl ⟨by simp [acquireCompanyRestrictions, fetchPageByTitle, hcm],
          Or.inr (Or.inr rfl)⟩
      | some ab =>
        exact Or.inr ⟨cb, ab, rfl, rfl, rfl,
          by simp [acquireCompanyRestrictions, fetchPageByTitle, hcm]⟩
  · exact Or.inl ⟨by cases countryRemote <;>
      simp [acquireCompanyRestrictions, fetchPageByTitle, hcm], Or.inl rfl⟩

/-- C1: for every rule set and every restricted country, `checkTransfer`
with that country as sender or as recipient returns `isPossible = false`;
when the sender is restricted, the first restriction line references the
sender, and the result does not depend on the recipient at all (the
recipient check is never reached). -/
theorem checkTransfer_restricted_country_rejects
    (rules : TransferRules) (sender recipient recipient2 currency : String)
    (h : rules.restrictedCountries.contains sender = true ∨
         rules.restrictedCountries.contains recipient = true) :
    (checkTransfer rules sender recipient currency).isPossible = false ∧
    (rules.restrictedCountries.contains sender = true →
      (checkTransfer rules sender recipient currency).restrictions.head? =
        some (emCross ++ " Transfers FROM " ++ sender ++
          " are PROHIBITED due to sanctions/compliance restrictions") ∧
      checkTransfer rules sender recipient currency =
        checkTransfer rules sender recipient2 currency) := by
  by_cases hs : rules.restrictedCountries.contains sender = true
  · have hsm : sender ∈ rules.restrictedCountries := by simpa using hs
    refine ⟨?_, fun _ => ⟨?_, ?_⟩⟩ <;> simp [checkTransfer, hsm]
  · have hsm : sender ∉ rules.restrictedCountries := by simpa using hs
    have hrm : recipient ∈ rules.restrictedCountries := by
      simpa using h.resolve_left hs
    exact ⟨by simp [checkTransfer, hsm, hrm], fun hcon => absurd hcon hs⟩

/-- C1 witness at a concrete input: with the fallback rules, Russia is
restricted both as sender and as recipient, the rejection references the
sender, and the recipient argument is immaterial. -/
theorem checkTransfer_restricted_country_rejects_witness :
    (checkTransfer getFallbackTransferRules "Russia" "Russia" "EUR").isPossible = false ∧
    (checkTransfer getFallbackTransferRules "Russia" "Russia" "EUR").restrictions.head? =
      some (emCross ++ " Transfers FROM " ++ "Russia" ++
        " are PROHIBITED due to sanctions/compliance restrictions") ∧
    checkTransfer getFallbackTransferRules "Russia" "Russia" "EUR" =
      checkTransfer getFallbackTransferRules "Russia" "Germany" "EUR" := by
  have h := checkTransfer_restricted_country_rejects getFallbackTransferRules
    "Russia" "Russia" "Germany" "EUR" (Or.inl (by decide))
  exact ⟨h.1, (h.2 (by decide)).1, (h.2 (by decide)).2⟩

/-- C2: the Acquisition Orchestrator is total: for every combination of
credentials, remote outcome and content, `getTransferRules` returns the
cached rules, the parse of the fetched content, or the hardcoded fallback,
and any fetch failure on an empty cache returns exactly the fallback;
`getCompanyRestrictions` likewise returns a fresh result only when BOTH
documents were fetched (parsed together), and otherwise the cached rules
or the full fallback — never a merge of one fresh and one fallback
document. -/
theorem acquisition_orchestrator_total (c : IntranetCreds)
    (remote countryRemote activitiesRemote : Option String)
    (tcache : Option (CacheEntry TransferRules))
    (ccache : Option (CacheEntry CompanyRules)) (now : Nat) :
    ((getTransferRules c remote tcache now).1 = getFallbackTransferRules ∨
     (∃ body, remote = some body ∧
       (getTransferRules c remote tcache now).1 = parseTransferRules body) ∨
     (∃ entry, tcache = some entry ∧
       (getTransferRules c remote tcache now).1 = entry.data)) ∧
    (tcache = none → credsMissing c = true ∨ remote = none →
      getTransferRules c remote tcache now = (getFallbackTransferRules, none)) ∧
    ((getCompanyRestrictions c countryRemote activitiesRemote ccache now).1 =
        getFallbackCompanyRestrictions ∨
     (∃ cb ab, countryRemote = some cb ∧ activitiesRemote = some ab ∧
       (getCompanyRestrictions c countryRemote activitiesRemote ccache now).1 =
         parseCompanyRestrictions cb ab) ∨
     (∃ entry, ccache = some entry ∧
       (getCompanyRestrictions c countryRemote activitiesRemote ccache now).1 =
         entry.data)) ∧
    (ccache = none →
      credsMissing c = true ∨ countryRemote = none ∨ activitiesRemote = none →
      getCompanyRestrictions c countryRemote activitiesRemote ccache now =
        (getFallbackCompanyRestrictions, none)) := by
  refine ⟨?_, ?_, ?_, ?_⟩
  · cases tcache with
    | none =>
      rcases acquireTransferRules_cases c remote now none with ⟨heq, _⟩ | ⟨body, hb, _, heq⟩
      · exact Or.inl (by simp [getTransferRules, heq])
      · exact Or.inr (Or.inl ⟨body, hb, by simp [getTransferRules, heq]⟩)
    | some entry =>
      by_cases hf : now - entry.timestamp < cacheExpiry
      · exact Or.inr (Or.inr ⟨entry, rfl, by simp [getTransferRules, hf]⟩)
      · have hred : getTransferRules c remote (some entry) now =
            acquireTransferRules c remote now (some entry) := by
          simp [getTransferRules, hf]
        rcases acquireTransferRules_cases c remote now (some entry) with
          ⟨heq, _⟩ | ⟨body, hb, _, heq⟩
        · exact Or.inl (by rw [hred, heq])
        · exact Or.inr (Or.inl ⟨body, hb, by rw [hred, heq]⟩)
  · intro hnone hfail
    subst hnone
    exact getTransferRules_fetch_failure c remote now hfail
  · cases ccache with
    | none =>
      rcases acquireCompanyRestrictions_cases c countryRemote activitiesRemote now none with
        ⟨heq, _⟩ | ⟨cb, ab, hcb, hab, _, heq⟩
      · exact Or.inl (by simp [getCompanyRestrictions, heq])
      · exact Or.inr (Or.inl ⟨cb, ab, hcb, hab, by simp [getCompanyRestrictions, heq]⟩)
    | some entry =>
      by_cases hf : now - entry.timestamp < cacheExpiry
      · exact Or.inr (Or.inr ⟨entry, rfl, by simp [getCompanyRestrictions, hf]⟩)
      · have hred : getCompanyRestrictions c countryRemote activitiesRemote (some entry) now =
            acquireCompanyRestrictions c countryRemote activitiesRemote now (some entry) := by
          simp [getCompanyRestrictions, hf]
        rcases acquireCompanyRestrictions_cases c countryRemote activitiesRemote now (some entry) with
          ⟨heq, _⟩ | ⟨cb, ab, hcb, hab, _, heq⟩
        · exact Or.inl (by rw [hred, heq])
        · exact Or.inr (Or.inl ⟨cb, ab, hcb, hab, by rw [hred, heq]⟩)
  · intro hnone hfail
    subst hnone
    exact getCompanyRestrictions_fetch_failure c countryRemote activitiesRemote now hfail

/-- C2 witness: with missing credentials and no reachable remote, both
orchestrator entry points return exactly the hardcoded fallbacks. -/
theorem acquisition_orchestrator_total_witness :
    getTransferRules ⟨"", ""⟩ none none 0 = (getFallbackTransferRules, none) ∧
    getCompanyRestrictions ⟨"", ""⟩ none none none 0 =
      (getFallbackCompanyRestrictions, none) := by
  have h := acquisition_orchestrator_total ⟨"", ""⟩ none none none none none 0
  exact ⟨h.2.1 rfl (Or.inl (by decide)), h.2.2.2 rfl (Or.inl (by decide))⟩

/-- C8: a cache entry stored at time `T` is served unchanged for every read
at `t` with `T ≤ t < T + 3600000`, and a read at `t ≥ T + 3600000` ignores
the entry and re-runs the acquisition pipeline (yielding the same rules as
a read with no cache at all). -/
theorem getTransferRules_cache_ttl (c : IntranetCreds) (remote : Option String)
    (entry : CacheEntry TransferRules) (now : Nat) :
    (entry.timestamp ≤ now → now < entry.timestamp + cacheExpiry →
      getTransferRules c remote (some entry) now = (entry.data, some entry)) ∧
    (entry.timestamp + cacheExpiry ≤ now →
      getTransferRules c remote (some entry) now =
        acquireTransferRules c remote now (some entry) ∧
      (getTransferRules c remote (some entry) now).1 =
        (getTransferRules c remote none now).1) := by
  constructor
  · intro h1 h2
    have hlt : now - entry.timestamp < cacheExpiry := by omega
    simp [getTransferRules, hlt]
  · intro h
    have hge : ¬ (now - entry.timestamp < cacheExpiry) := by omega
    refine ⟨by simp [getTransferRules, hge], ?_⟩
    cases hfc : fetchPageContent c remote <;>
      simp [getTransferRules, hge, acquireTransferRules, hfc]

/-- C8 witness: an entry stored at time 0 is served at 3599999 ms and
ignored at 3600000 ms. -/
theorem getTransferRules_cache_ttl_witness :
    getTransferRules ⟨"", ""⟩ none (some ⟨getFallbackTransferRules, 0⟩) 3599999 =
      (getFallbackTransferRules, some ⟨getFallbackTransferRules, 0⟩) ∧
    getTransferRules ⟨"", ""⟩ none (some ⟨getFallbackTransferRules, 0⟩) 3600000 =
      acquireTransferRules ⟨"", ""⟩ none 3600000 (some ⟨getFallbackTransferRules, 0⟩) := by
  have h1 := (getTransferRules_cache_ttl ⟨"", ""⟩ none ⟨getFallbackTransferRules, 0⟩ 3599999).1
    (by decide) (by decide)
  have h2 := (getTransferRules_cache_ttl ⟨"", ""⟩ none ⟨getFallbackTransferRules, 0⟩ 3600000).2
    (by decide)
  exact ⟨h1, h2.1⟩

/-- C9 counterexample: with configured credentials, a successful fetch of a
page whose content yields no restricted country makes `parseTransferRules`
return the hardcoded fallback, and `getTransferRules` stores that fallback
in the cache — contradicting the claim that the fallback is never cached. -/
theorem getTransferRules_extraction_fallback_is_cached :
    getTransferRules ⟨"key", "user"⟩ (some "") none 0 =
      (getFallbackTransferRules, some ⟨getFallbackTransferRules, 0⟩) ∧
    parseTransferRules "" = getFallbackTransferRules := by
  constructor <;> rfl

/-- C9 (amended): nothing is cached when the fetch itself fails (missing
credentials or transport failure), so such a request within the TTL window
re-attempts acquisition; but when the fetch succeeds, the parse result is
always cached — including the extraction-failure case, where the parse
result is the hardcoded fallback. -/
theorem getTransferRules_cache_write_discipline (c : IntranetCreds)
    (body : String) (remote : Option String) (now : Nat) :
    (credsMissing c = true ∨ remote = none →
      getTransferRules c remote none now = (getFallbackTransferRules, none)) ∧
    (credsMissing c = false →
      getTransferRules c (some body) none now =
        (parseTransferRules body, some ⟨parseTransferRules body, now⟩)) ∧
    (credsMissing c = false →
      extractCountryList ["Restricted", "Prohibited", "Sanctioned"] ["Countries"] body = [] →
      getTransferRules c (some body) none now =
        (getFallbackTransferRules, some ⟨getFallbackTransferRules, now⟩)) := by
  refine ⟨getTransferRules_fetch_failure c remote now, ?_, ?_⟩
  · intro hcm
    simp [getTransferRules, acquireTransferRules, fetchPageContent, hcm]
  · intro hcm hext
    simp [getTransferRules, acquireTransferRules, fetchPageContent, hcm,
      parseTransferRules, hext]

/-- C9 amended witness: a failing fetch caches nothing; a successful fetch
of extraction-failing content caches the fallback. -/
theorem getTransferRules_cache_write_discipline_witness :
    getTransferRules ⟨"", ""⟩ none none 0 = (getFallbackTransferRules, none) ∧
    getTransferRules ⟨"key", "user"⟩ (some "") none 0 =
      (getFallbackTransferRules, some ⟨getFallbackTransferRules, 0⟩) := by
  have h := getTransferRules_cache_write_discipline ⟨"", ""⟩ "" none 0
  have h2 := getTransferRules_cache_write_discipline ⟨"key", "user"⟩ "" (some "") 0
  exact ⟨h.1 (Or.inl (by decide)), h2.2.2 (by decide) (by decide)⟩

/-- When the company country is not restricted and some prohibited entry
matches, `validateCompany` returns the prohibited-activity rejection built
from the first matching entry. -/
theorem validateCompany_prohibited_found (rules : CompanyRules)
    (country activity p : String)
    (hc : rules.restrictedCountries.contains country = false)
    (hf : rules.prohibitedActivities.find?
      (fun q => activityMatches (jsToLower activity) q) = some p) :
    validateCompany rules country activity =
      { isPossible := false
        countryStatus := (companyCountryClassification rules country).1
        activityStatus := emNoEntry ++ " PROHIBITED Activity (Red status)"
        restrictions := (companyCountryClassification rules country).2 ++
          [emCross ++ " Business activity \"" ++ p ++ "\" is NOT ACCEPTED",
           emPage ++ " Source: FNTT Space - \"" ++ activitiesPageTitle ++ "\"",
           emRedCircle ++ " This activity type is listed in the PROHIBITED activities section",
           emLink ++ " View full list: " ++ jsShow rules.activitiesPageSource,
           emWarn ++ " Account opening is NOT POSSIBLE for this type of business activity"]
        conditions := []
        intranetPageSource := rules.pageSource
        countryPageId := some "FNTT Space"
        activitiesPageId := rules.activitiesPageSource } := by
  have hcm : country ∉ rules.restrictedCountries := by simpa using hc
  simp [validateCompany, hcm, hf]

/-- The restricted-activities loop computes: a flag that some entry
matched, the narratives of the matching entries in order, and three
conditions per matching entry. -/
theorem restrictedLoop_spec (a : String) (l : List String) (b : Bool)
    (ars cs : List String) :
    l.foldl (restrictedActivityStep a) (b, ars, cs) =
      (b || l.any (fun r => activityMatches a r),
       ars ++ (l.filter (fun r => activityMatches a r)).flatMap restrictedNarrative,
       cs ++ (l.filter (fun r => activityMatches a r)).flatMap
         (fun _ => [condLicenses, condMonitoring, condDocumentation])) := by
  induction l generalizing b ars cs with
  | nil => simp
  | cons r rest ih =>
    cases hm : activityMatches a r <;>
      simp [List.foldl_cons, restrictedActivityStep, hm, ih, List.filter_cons,
        List.any_cons, List.append_assoc]

theorem length_flatMap_conditions (l : List String) :
    (l.flatMap (fun _ => [condLicenses, condMonitoring, condDocumentation])).length =
      3 * l.length := by
  induction l with
  | nil => rfl
  | cons x xs ih =>
    simp only [List.flatMap_cons, List.length_append, List.length_cons,
      List.length_nil, ih]
    omega

/-- C3: when the company country is not restricted and the lowercased
activity text matches a prohibited entry, the first matching entry (in list
order) rejects the company: `possible = false`, a Prohibited activity
status, the country classification still reported, and empty conditions;
in particular an activity text whose lowercase form equals a prohibited
entry's lowercase form is always rejected. -/
theorem validateCompany_prohibited_activity (rules : CompanyRules)
    (country activity p : String)
    (hc : rules.restrictedCountries.contains country = false) :
    (rules.prohibitedActivities.find?
        (fun q => activityMatches (jsToLower activity) q) = some p →
      (validateCompany rules country activity).isPossible = false ∧
      (validateCompany rules country activity).activityStatus =
        emNoEntry ++ " PROHIBITED Activity (Red status)" ∧
      (validateCompany rules country activity).conditions = [] ∧
      (validateCompany rules country activity).countryStatus =
        (companyCountryClassification rules country).1 ∧
      (emCross ++ " Business activity \"" ++ p ++ "\" is NOT ACCEPTED") ∈
        (validateCompany rules country activity).restrictions) ∧
    (p ∈ rules.prohibitedActivities → jsToLower activity = jsToLower p →
      (validateCompany rules country activity).isPossible = false) := by
  constructor
  · intro hf
    rw [validateCompany_prohibited_found rules country activity p hc hf]
    exact ⟨rfl, rfl, rfl, rfl, by simp⟩
  · intro hp heq
    have hmatch : activityMatches (jsToLower activity) p = true := by
      simp [activityMatches, heq, jsIncludes_self]
    have hsome : (rules.prohibitedActivities.find?
        (fun q => activityMatches (jsToLower activity) q)).isSome := by
      rw [List.find?_isSome]
      exact ⟨p, hp, hmatch⟩
    obtain ⟨q, hq⟩ := Option.isSome_iff_exists.mp hsome
    rw [validateCompany_prohibited_found rules country activity q hc hq]

/-- C3 witness: with the fallback restrictions, the exact prohibited entry
"Gambling and betting" rejects a Lithuanian company. -/
theorem validateCompany_prohibited_activity_witness :
    (validateCompany getFallbackCompanyRestrictions "Lithuania" "Gambling and betting").isPossible
        = false ∧
    (validateCompany getFallbackCompanyRestrictions "Lithuania" "Gambling and betting").activityStatus
        = emNoEntry ++ " PROHIBITED Activity (Red status)" ∧
    (validateCompany getFallbackCompanyRestrictions "Lithuania" "Gambling and betting").conditions
        = [] := by
  have h := (validateCompany_prohibited_activity getFallbackCompanyRestrictions
    "Lithuania" "Gambling and betting" "Gambling and betting" (by decide)).1 (by decide)
  exact ⟨h.1, h.2.1, h.2.2.1⟩

/-- C5 (amended): with the company country neither restricted nor under
enhanced due diligence and no prohibited entry matching, every matching
`restrictedActivities` entry appends exactly THREE standard conditions
(valid licenses; enhanced monitoring; additional documentation), in order
and without deduplication: k matches produce 3k conditions. -/
theorem validateCompany_restricted_conditions (rules : CompanyRules)
    (country activity : String)
    (hc : rules.restrictedCountries.contains country = false)
    (hedd : rules.enhancedDueDiligence.contains country = false)
    (hp : rules.prohibitedActivities.find?
      (fun q => activityMatches (jsToLower activity) q) = none) :
    (validateCompany rules country activity).conditions =
      (rules.restrictedActivities.filter
        (fun r => activityMatches (jsToLower activity) r)).flatMap
        (fun _ => [condLicenses, condMonitoring, condDocumentation]) ∧
    (validateCompany rules country activity).conditions.length =
      3 * (rules.restrictedActivities.filter
        (fun r => activityMatches (jsToLower activity) r)).length := by
  have hcm : country ∉ rules.restrictedCountries := by simpa using hc
  have heddm : country ∉ rules.enhancedDueDiligence := by simpa using hedd
  have hconds : (validateCompany rules country activity).conditions =
      (rules.restrictedActivities.filter
        (fun r => activityMatches (jsToLower activity) r)).flatMap
        (fun _ => [condLicenses, condMonitoring, condDocumentation]) := by
    simp [validateCompany, hcm, hp, restrictedLoop_spec, heddm]
  exact ⟨hconds, by rw [hconds, length_flatMap_conditions]⟩

/-- C5 counterexample: the activity "Dating services" matches exactly one
restricted entry of the fallback rules, and the result carries three
conditions, not the two the claim states. -/
theorem validateCompany_restricted_conditions_count :
    (validateCompany getFallbackCompanyRestrictions "Lithuania" "Dating services").conditions =
      [condLicenses, condMonitoring, condDocumentation] ∧
    (validateCompany getFallbackCompanyRestrictions "Lithuania" "Dating services").conditions.length
        = 3 ∧
    ¬ (validateCompany getFallbackCompanyRestrictions "Lithuania" "Dating services").conditions.length
        = 2 := by
  refine ⟨?_, ?_, ?_⟩ <;> decide

/-- C5 amended witness at the same concrete input, through the amended
theorem. -/
theorem validateCompany_restricted_conditions_witness :
    (validateCompany getFallbackCompanyRestrictions "Lithuania" "Dating services").conditions =
      (getFallbackCompanyRestrictions.restrictedActivities.filter
        (fun r => activityMatches (jsToLower "Dating services") r)).flatMap
        (fun _ => [condLicenses, condMonitoring, condDocumentation]) ∧
    (validateCompany getFallbackCompanyRestrictions "Lithuania" "Dating services").conditions.length =
      3 * (getFallbackCompanyRestrictions.restrictedActivities.filter
        (fun r => activityMatches (jsToLower "Dating services") r)).length :=
  validateCompany_restricted_conditions getFallbackCompanyRestrictions "Lithuania"
    "Dating services" (by decide) (by decide) (by decide)

/-- C10: whenever the rule set has a non-empty prohibited-activities list
and the company country is not restricted, the empty activity text is
rejected as a prohibited activity — the lowercased empty string is a
substring of every entry, so the bidirectional test matches the first
entry; the engine returns an ordinary prohibited rejection, not an input
error. -/
theorem validateCompany_empty_activity_rejected (rules : CompanyRules)
    (country p : String) (ps : List String)
    (hlist : rules.prohibitedActivities = p :: ps)
    (hc : rules.restrictedCountries.contains country = false) :
    (validateCompany rules country "").isPossible = false ∧
    (validateCompany rules country "").activityStatus =
      emNoEntry ++ " PROHIBITED Activity (Red status)" ∧
    (validateCompany rules country "").conditions = [] ∧
    (emCross ++ " Business activity \"" ++ p ++ "\" is NOT ACCEPTED") ∈
      (validateCompany rules country "").restrictions := by
  have hmatch : activityMatches (jsToLower "") p = true := by
    have h0 : jsToLower "" = "" := rfl
    simp [activityMatches, h0, jsIncludes_empty_needle]
  have hfind : rules.prohibitedActivities.find?
      (fun q => activityMatches (jsToLower "") q) = some p := by
    rw [hlist]
    simp [List.find?_cons, hmatch]
  rw [validateCompany_prohibited_found rules country "" p hc hfind]
  exact ⟨rfl, rfl, rfl, by simp⟩

/-- C10 witness: the fallback rules have a non-empty prohibited list, and
the empty activity text from Lithuania is rejected as prohibited. -/
theorem validateCompany_empty_activity_rejected_witness :
    (validateCompany getFallbackCompanyRestrictions "Lithuania" "").isPossible = false ∧
    (validateCompany getFallbackCompanyRestrictions "Lithuania" "").activityStatus =
      emNoEntry ++ " PROHIBITED Activity (Red status)" := by
  have h := validateCompany_empty_activity_rejected getFallbackCompanyRestrictions
    "Lithuania" "Gambling and betting"
    getFallbackCompanyRestrictions.prohibitedActivities.tail rfl (by decide)
  exact ⟨h.1, h.2.1⟩

/-- C4 (amended): for a non-rejected transfer the settlement system and fee
follow the fixed precedence — (a) recipient Lithuania and currency EUR give
the system labelled "Local Transfer (Lithuania)" with fee "0 EUR"; (b)
otherwise EUR to an EU/EEA recipient gives "SEPA" with fee "0 EUR"; (c)
otherwise a Currency One currency gives "Currency One" with fee "1 EUR";
(d) otherwise "SWIFT" with the fee range. -/
theorem checkTransfer_settlement_precedence (rules : TransferRules)
    (sender recipient currency : String)
    (hs : rules.restrictedCountries.contains sender = false)
    (hr : rules.restrictedCountries.contains recipient = false)
    (hcur : lookupStr rules.currencyRestrictions currency ≠ some "Prohibited") :
    (checkTransfer rules sender recipient currency).isPossible = true ∧
    (recipient = "Lithuania" → currency = "EUR" →
      (checkTransfer rules sender recipient currency).system =
        some "Local Transfer (Lithuania)" ∧
      (checkTransfer rules sender recipient currency).fee = some "0 EUR") ∧
    (¬(recipient = "Lithuania" ∧ currency = "EUR") → currency = "EUR" →
      isEUCountry recipient = true →
      (checkTransfer rules sender recipient currency).system = some "SEPA" ∧
      (checkTransfer rules sender recipient currency).fee = some "0 EUR") ∧
    (¬(recipient = "Lithuania" ∧ currency = "EUR") →
      ¬(currency = "EUR" ∧ isEUCountry recipient = true) →
      currencyOneCurrencies.contains currency = true →
      (checkTransfer rules sender recipient currency).system = some "Currency One" ∧
      (checkTransfer rules sender recipient currency).fee = some "1 EUR") ∧
    (¬(recipient = "Lithuania" ∧ currency = "EUR") →
      ¬(currency = "EUR" ∧ isEUCountry recipient = true) →
      currencyOneCurrencies.contains currency = false →
      (checkTransfer rules sender recipient currency).system = some "SWIFT" ∧
      (checkTransfer rules sender recipient currency).fee =
        some "15-50 EUR (depending on currency and amount)") := by
  have hsm : sender ∉ rules.restrictedCountries := by simpa using hs
  have hrm : recipient ∉ rules.restrictedCountries := by simpa using hr
  refine ⟨?_, ?_, ?_, ?_, ?_⟩
  · simp [checkTransfer, hsm, hrm, hcur]
  · intro h1 h2
    subst h1; subst h2
    simp [checkTransfer, hsm, hrm, hcur]
  · intro hn hEur hEU
    subst hEur
    have hrl : recipient ≠ "Lithuania" := fun hh => hn ⟨hh, rfl⟩
    simp [checkTransfer, hsm, hrm, hcur, hrl, hEU]
  · intro hn1 hn2 hco
    have hcom : currency ∈ currencyOneCurrencies := by simpa using hco
    simp [checkTransfer, hsm, hrm, hcur, hn1, hn2, hcom]
  · intro hn1 hn2 hco
    have hcom : currency ∉ currencyOneCurrencies := by simpa using hco
    simp [checkTransfer, hsm, hrm, hcur, hn1, hn2, hcom]

/-- C4 counterexample: the scenario Austria to Lithuania in EUR succeeds
with fee "0 EUR", but the system string is "Local Transfer (Lithuania)",
not the claimed "Local Transfer". -/
theorem checkTransfer_local_label_mismatch :
    (checkTransfer getFallbackTransferRules "Austria" "Lithuania" "EUR").isPossible = true ∧
    (checkTransfer getFallbackTransferRules "Austria" "Lithuania" "EUR").fee = some "0 EUR" ∧
    (checkTransfer getFallbackTransferRules "Austria" "Lithuania" "EUR").system =
      some "Local Transfer (Lithuania)" ∧
    ¬ (checkTransfer getFallbackTransferRules "Austria" "Lithuania" "EUR").system =
      some "Local Transfer" := by
  refine ⟨?_, ?_, ?_, ?_⟩ <;> decide

/-- C4 witness: the amended precedence applied to the concrete scenario. -/
theorem checkTransfer_settlement_precedence_witness :
    (checkTransfer getFallbackTransferRules "Austria" "Lithuania" "EUR").isPossible = true ∧
    (checkTransfer getFallbackTransferRules "Austria" "Lithuania" "EUR").system =
      some "Local Transfer (Lithuania)" ∧
    (checkTransfer getFallbackTransferRules "Austria" "Lithuania" "EUR").fee = some "0 EUR" := by
  have h := checkTransfer_settlement_precedence getFallbackTransferRules
    "Austria" "Lithuania" "EUR" (by decide) (by decide) (by decide)
  exact ⟨h.1, (h.2.1 rfl rfl).1, (h.2.1 rfl rfl).2⟩

theorem ibanCountryCodes_min_length : ∀ p ∈ ibanCountryCodes, 15 ≤ p.2.2 := by decide

theorem startsWithTwoUpper_of_swift {l : List Char} (h : swiftPattern l = true) :
    startsWithTwoUpper l = true := by
  rcases l with _ | ⟨a, _ | ⟨b, rest⟩⟩
  · simp [swiftPattern] at h
  · simp [swiftPattern] at h
  · have hB : ((a :: b :: rest).take 6).all isUpperAlpha = true := by
      simp only [swiftPattern, Bool.and_eq_true] at h
      exact h.1.2
    have htake : (a :: b :: rest).take 6 = a :: b :: rest.take 4 := rfl
    rw [htake] at hB
    simp only [List.all_cons, Bool.and_eq_true] at hB
    simp [startsWithTwoUpper, hB.1, hB.2.1]

theorem swiftPattern_length {l : List Char} (h : swiftPattern l = true) :
    l.length = 8 ∨ l.length = 11 := by
  simp only [swiftPattern, Bool.and_eq_true, Bool.or_eq_true, beq_iff_eq] at h
  exact h.1.1

/-- C6: every string whose cleaned form matches the SWIFT/BIC pattern is
captured by the IBAN branch of `validateIdentifier` (any string starting
with two letters) and rejected there — its length 8 or 11 can never equal a
table entry (all lengths are at least 15), and an unknown leading pair
fails the country lookup — so the result is never a valid SWIFT report. -/
theorem validateIdentifier_swift_unreachable (s : String)
    (hswift : swiftPattern (cleanIdentifier s).toList = true) :
    (validateIdentifier s).isValid = false ∧ (validateIdentifier s).type ≠ "SWIFT" := by
  have hstart : startsWithTwoUpper (cleanIdentifier s).toList = true :=
    startsWithTwoUpper_of_swift hswift
  have hlen : (cleanIdentifier s).toList.length = 8 ∨ (cleanIdentifier s).toList.length = 11 :=
    swiftPattern_length hswift
  have hstart2 : startsWithTwoUpper (cleanIdentifier s).data = true := hstart
  cases hfind : ibanCountryCodes.find?
      (fun p => p.1 == String.mk ((cleanIdentifier s).toList.take 2)) with
  | none =>
    have hfind2 : ibanCountryCodes.find?
        (fun p => p.1 == String.mk (List.take 2 (cleanIdentifier s).data)) = none := hfind
    constructor <;> simp [validateIdentifier, hstart2, hfind2]
  | some entry =>
    have hfind2 : ibanCountryCodes.find?
        (fun p => p.1 == String.mk (List.take 2 (cleanIdentifier s).data)) = some entry := hfind
    have h15 : 15 ≤ entry.2.2 :=
      ibanCountryCodes_min_length entry (List.mem_of_find?_eq_some hfind)
    have hne : (cleanIdentifier s).length ≠ entry.2.2 := by
      have hl : (cleanIdentifier s).length = (cleanIdentifier s).toList.length := rfl
      omega
    constructor <;> simp [validateIdentifier, hstart2, hfind2, hne]

/-- C6 witness: the documentation's own example "DEUTDEFF" matches the
SWIFT pattern yet is reported as an invalid IBAN. -/
theorem validateIdentifier_swift_unreachable_witness :
    swiftPattern (cleanIdentifier "DEUTDEFF").toList = true ∧
    (validateIdentifier "DEUTDEFF").isValid = false ∧
    (validateIdentifier "DEUTDEFF").type = "IBAN" ∧
    (validateIdentifier "DEUTDEFF").type ≠ "SWIFT" := by
  have h := validateIdentifier_swift_unreachable "DEUTDEFF" (by decide)
  exact ⟨by decide, h.1, by decide, h.2⟩

theorem char_ofNat_toNat_small : ∀ m, m < 128 → (Char.ofNat m).toNat = m := by decide

theorem digitChar_toNat {n : Nat} (hn : n < 10) : (digitChar n).toNat = 48 + n :=
  char_ofNat_toNat_small (48 + n) (by omega)

theorem digitChar_isDigitCh {n : Nat} (hn : n < 10) : isDigitCh (digitChar n) = true := by
  simp only [isDigitCh, digitChar_toNat hn, Bool.and_eq_true, decide_eq_true_eq]
  omega

/-- Folding the decimal digits produced by the letter substitution equals
folding the original characters with the claim's letter-value reading. -/
theorem decimal_of_numeric : ∀ (l : List Char),
    (∀ c ∈ l, isUpperAlphaNum c = true) → ∀ acc : Nat,
    (ibanNumericChars l).foldl (fun a c => a * 10 + (c.toNat - 48)) acc =
      l.foldl (fun a c =>
        if isUpperAlpha c then a * 100 + (c.toNat - 55)
        else a * 10 + (c.toNat - 48)) acc := by
  intro l
  induction l with
  | nil => intro _ acc; rfl
  | cons c rest ih =>
    intro h acc
    have hrest : ∀ x ∈ rest, isUpperAlphaNum x = true :=
      fun x hx => h x (List.mem_cons_of_mem _ hx)
    by_cases hu : isUpperAlpha c = true
    · have hb : 65 ≤ c.toNat ∧ c.toNat ≤ 90 := by
        simpa [isUpperAlpha, Bool.and_eq_true, decide_eq_true_eq] using hu
      have hcond : (65 ≤ c.toNat && c.toNat ≤ 90) = true := by
        simp only [Bool.and_eq_true, decide_eq_true_eq]
        exact hb
      have hv10 : (c.toNat - 55) / 10 < 10 := by omega
      have hv10' : (c.toNat - 55) % 10 < 10 := Nat.mod_lt _ (by norm_num)
      have hsplit : ibanNumericChars (c :: rest) = letterDigits c ++ ibanNumericChars rest := by
        simp [ibanNumericChars, hb.1, hb.2]
      rw [hsplit, List.foldl_append]
      have hstep : (letterDigits c).foldl (fun a ch => a * 10 + (ch.toNat - 48)) acc =
          acc * 100 + (c.toNat - 55) := by
        simp only [letterDigits, List.foldl_cons, List.foldl_nil]
        rw [digitChar_toNat hv10, digitChar_toNat hv10']
        have hdm := Nat.div_add_mod (c.toNat - 55) 10
        omega
      rw [hstep, ih hrest]
      simp [List.foldl_cons, hu]
    · have hcond : (65 ≤ c.toNat && c.toNat ≤ 90) = false := by
        cases hx : (65 ≤ c.toNat && c.toNat ≤ 90)
        · rfl
        · exact absurd (by simpa [isUpperAlpha] using hx) hu
      have hnot : ¬(65 ≤ c.toNat ∧ c.toNat ≤ 90) := by
        intro hcontra
        exact hu (by simp [isUpperAlpha, hcontra.1, hcontra.2])
      have hsplit : ibanNumericChars (c :: rest) = c :: ibanNumericChars rest := by
        simp [ibanNumericChars, hnot]
      rw [hsplit]
      simp only [List.foldl_cons]
      rw [ih hrest]
      simp [hu]

/-- The letter substitution of an alphanumeric string is all digits (the
`BigInt` conversion cannot fail). -/
theorem ibanNumericChars_all_digits : ∀ (l : List Char),
    (∀ c ∈ l, isUpperAlphaNum c = true) →
    (ibanNumericChars l).all isDigitCh = true := by
  intro l
  induction l with
  | nil => intro _; rfl
  | cons c rest ih =>
    intro h
    have hc : isUpperAlphaNum c = true := h c (List.mem_cons_self c rest)
    have hrest := ih (fun x hx => h x (List.mem_cons_of_mem _ hx))
    by_cases hu : isUpperAlpha c = true
    · have hb : 65 ≤ c.toNat ∧ c.toNat ≤ 90 := by
        simpa [isUpperAlpha, Bool.and_eq_true, decide_eq_true_eq] using hu
      have hcond : (65 ≤ c.toNat && c.toNat ≤ 90) = true := by
        simp only [Bool.and_eq_true, decide_eq_true_eq]; exact hb
      have hv10 : (c.toNat - 55) / 10 < 10 := by omega
      have hv10' : (c.toNat - 55) % 10 < 10 := Nat.mod_lt _ (by norm_num)
      have hsplit : ibanNumericChars (c :: rest) = letterDigits c ++ ibanNumericChars rest := by
        simp [ibanNumericChars, hb.1, hb.2]
      rw [hsplit, List.all_append]
      simp [letterDigits, digitChar_isDigitCh hv10, digitChar_isDigitCh hv10', hrest]
    · have hdig : isDigitCh c = true := by
        rcases Bool.or_eq_true _ _ |>.mp (by simpa [isUpperAlphaNum] using hc) with hx | hx
        · exact absurd hx hu
        · exact hx
      have hcond : (65 ≤ c.toNat && c.toNat ≤ 90) = false := by
        cases hx : (65 ≤ c.toNat && c.toNat ≤ 90)
        · rfl
        · exact absurd (by simpa [isUpperAlpha] using hx) hu
      have hnot : ¬(65 ≤ c.toNat ∧ c.toNat ≤ 90) := by
        intro hcontra
        exact hu (by simp [isUpperAlpha, hcontra.1, hcontra.2])
      have hsplit : ibanNumericChars (c :: rest) = c :: ibanNumericChars rest := by
        simp [ibanNumericChars, hnot]
      rw [hsplit]
      simp [hdig, hrest]

/-- Every character of the rearranged form of a format-conforming string is
alphanumeric. -/
theorem rearranged_alnum {l : List Char} (hfmt : ibanFormatOk l = true) :
    ∀ c ∈ l.drop 4 ++ l.take 4, isUpperAlphaNum c = true := by
  simp only [ibanFormatOk, Bool.and_eq_true] at hfmt
  obtain ⟨⟨⟨⟨-, -⟩, hup⟩, hdig⟩, hrest⟩ := hfmt
  intro c hc
  rcases List.mem_append.mp hc with hc | hc
  · exact List.all_eq_true.mp hrest c hc
  · have h4 : l.take 4 = l.take 2 ++ (l.drop 2).take 2 := by
      simpa using List.take_add l 2 2
    rw [h4] at hc
    rcases List.mem_append.mp hc with hc | hc
    · have := List.all_eq_true.mp hup c hc
      simp [isUpperAlphaNum, this]
    · have := List.all_eq_true.mp hdig c hc
      simp [isUpperAlphaNum, this]

/-- `isValidIBAN` decides exactly the claim's arithmetic condition on
format-conforming cleaned strings. -/
theorem isValidIBAN_mod97 (s : String) (hfmt : ibanFormatOk (ibanCleaned s) = true) :
    (isValidIBAN s = true ↔ specIbanMod97Value (ibanCleaned s) % 97 = 1) := by
  have halnum := rearranged_alnum hfmt
  have hdig := ibanNumericChars_all_digits _ halnum
  have hval := decimal_of_numeric _ halnum 0
  simp only [isValidIBAN, hfmt, if_true, hdig, decimalValue, specIbanMod97Value, hval,
    beq_iff_eq]

/-- C7 (amended): `isValidIBAN` returns `true` exactly when the rearranged,
letter-substituted integer is 1 modulo 97 (for format-conforming strings);
and for an input whose TRIMMED uppercased form starts with two letters, the
submit flow reports a fully valid IBAN only when both the country-table
length check and this mod-97 check pass. -/
theorem ibanFlow_both_checks (s : String) (r : IdentifierResult) :
    (ibanFormatOk (ibanCleaned s) = true →
      (isValidIBAN s = true ↔ specIbanMod97Value (ibanCleaned s) % 97 = 1)) ∧
    (startsWithTwoUpper (jsToUpper (jsTrim s)).toList = true →
      ibanSwiftSubmit s = .validatorResult r →
      r.isValid = true → r.type = "IBAN" →
      isValidIBAN s = true ∧
      ∃ entry, ibanCountryCodes.find?
          (fun p => p.1 == String.mk ((cleanIdentifier (jsTrim s)).toList.take 2)) =
            some entry ∧
        (cleanIdentifier (jsTrim s)).length = entry.2.2) := by
  refine ⟨isValidIBAN_mod97 s, ?_⟩
  intro hcand hres hval htype
  rw [ibanSwiftSubmit] at hres
  by_cases hemp : (jsTrim s == "") = true
  · rw [if_pos hemp] at hres
    cases hres
  · rw [if_neg hemp] at hres
    cases hIV : isValidIBAN s with
    | false =>
      rw [hcand] at hres
      simp only [hIV, Bool.not_false, Bool.and_true, if_true] at hres
      cases hres
    | true =>
      have hguard : (startsWithTwoUpper (jsToUpper (jsTrim s)).toList &&
          !isValidIBAN s) = false := by
        simp [hIV]
      have hres2 : IbanFlowOutcome.validatorResult (validateIdentifier (jsTrim s)) =
          IbanFlowOutcome.validatorResult r := by
        rw [← hres]
        simp [hIV]
      have hr : r = validateIdentifier (jsTrim s) :=
        (IbanFlowOutcome.validatorResult.inj hres2).symm
      refine ⟨rfl, ?_⟩
      subst hr
      cases hstart2 : startsWithTwoUpper (cleanIdentifier (jsTrim s)).data with
      | false =>
        cases hsw : swiftPattern (cleanIdentifier (jsTrim s)).data <;>
          simp [validateIdentifier, hstart2, hsw] at htype
      | true =>
        cases hfind : ibanCountryCodes.find?
            (fun p => p.1 == String.mk (List.take 2 (cleanIdentifier (jsTrim s)).data)) with
        | none =>
          simp [validateIdentifier, hstart2, hfind] at hval
        | some entry =>
          by_cases hlen : (cleanIdentifier (jsTrim s)).length ≠ entry.2.2
          · simp [validateIdentifier, hstart2, hfind, hlen] at hval
          · exact ⟨entry, hfind, by omega⟩

/-- C7 counterexample: an input with interior whitespace is an IBAN
candidate in the claim's sense (the whitespace-stripped uppercased form
starts with two letters), fails the mod-97 check, yet is reported as a
fully valid IBAN because the checksum guard only engages when the TRIMMED
input starts with two letters. -/
theorem ibanFlow_checksum_bypass :
    (∃ r, ibanSwiftSubmit "G B82WEST12345698765433" = .validatorResult r ∧
      r.isValid = true ∧ r.type = "IBAN") ∧
    startsWithTwoUpper (cleanIdentifier "G B82WEST12345698765433").toList = true ∧
    isValidIBAN "G B82WEST12345698765433" = false ∧
    isValidIBAN "GB82WEST12345698765432" = true := by
  exact ⟨⟨validateIdentifier (jsTrim "G B82WEST12345698765433"),
    by decide, by decide, by decide⟩, by decide, by decide, by decide⟩

/-- C7 amended witness: the canonical valid example goes through the flow
with both checks passing, and the format-conforming arithmetic equivalence
holds for it. -/
theorem ibanFlow_both_checks_witness :
    (isValidIBAN "GB82WEST12345698765432" = true ↔
      specIbanMod97Value (ibanCleaned "GB82WEST12345698765432") % 97 = 1) ∧
    isValidIBAN "GB82WEST12345698765432" = true ∧
    (∃ entry, ibanCountryCodes.find?
        (fun p => p.1 ==
          String.mk ((cleanIdentifier (jsTrim "GB82WEST12345698765432")).toList.take 2)) =
          some entry ∧
      (cleanIdentifier (jsTrim "GB82WEST12345698765432")).length = entry.2.2) := by
  have h := ibanFlow_both_checks "GB82WEST12345698765432"
    (validateIdentifier (jsTrim "GB82WEST12345698765432"))
  have h2 := h.2 (by decide) (by decide) (by decide) (by decide)
  exact ⟨h.1 (by decide), h2.1, h2.2⟩
